import Mathlib

/-!
Verification of the ImmichSyncRUST sync client (`src/main.rs`) against its
natural-language specification.  The embedding models the pure decision
logic of the program: response classification (`upload_asset`), endpoint
resolution (`get_active_url`), the per-file orchestration loop in `main`,
the modification-time sort, and the persisted history ledger
(`load_history` / `save_history`).  Network and filesystem effects are
abstracted as oracle functions; JSON parsing of a response body into an
`AssetResponse { id }` is abstracted as a function `String → Option String`.
-/

namespace ImmichSync

/-- The spec's `UploadOutcome` data type (§3): classification of one upload
attempt.  `RejectedDuplicate none` is the spec's `RejectedDuplicate(unknown)`. -/
inductive UploadOutcome where
  | Created (id : String)
  | Deduplicated (id : String)
  | RejectedDuplicate (id : Option String)
  | Failed
deriving DecidableEq

/-- A fully received HTTP response to the asset-upload request: numeric
status code and body text.  `201 = CREATED`, `200 = OK`, `409 = CONFLICT`. -/
structure ServerResponse where
  status : Nat
  body : String
deriving DecidableEq

/-- Embedding of `upload_asset` (main.rs lines 221-241), from the point where
the response `status` has been received.  `parseId` abstracts
`resp.json::<AssetResponse>()`, returning the `id` field when the body
parses.  The Rust function returns `Result<Option<String>>`: `Err` (here
`.error ()`) when a `?` propagates a body-parse failure on 201/200,
`Ok(Some id)` for a usable id, `Ok(Some "DUPLICATE_UNKNOWN_ID")` for a
conflict whose body yields no id, and `Ok(None)` for any other status. -/
def upload_asset (parseId : String → Option String) (r : ServerResponse) :
    Except Unit (Option String) :=
  if r.status = 201 then
    match parseId r.body with
    | some id => .ok (some id)
    | none => .error ()
  else if r.status = 200 then
    match parseId r.body with
    | some id => .ok (some id)
    | none => .error ()
  else if r.status = 409 then
    match parseId r.body with
    | some id => .ok (some id)
    | none => .ok (some "DUPLICATE_UNKNOWN_ID")
  else
    .ok none

/-- Spec-side classification table of §4.3, written from the spec's words for
the refinement claim C1: "created" yields `Created(id)`, "ok" yields
`Deduplicated(id)`, "conflict" yields `RejectedDuplicate` with the parsed id
when the body parses and `unknown` otherwise, any other status yields
`Failed`.  The table presupposes a parseable body on 201/200, so the result
is `none` when that presupposition fails. -/
def specClassify (parseId : String → Option String) (r : ServerResponse) :
    Option UploadOutcome :=
  if r.status = 201 then
    (parseId r.body).map .Created
  else if r.status = 200 then
    (parseId r.body).map .Deduplicated
  else if r.status = 409 then
    some (.RejectedDuplicate (parseId r.body))
  else
    some .Failed

/-- How the code represents each spec outcome in its `Result<Option<String>>`
return value: known ids are carried directly, the unknown-duplicate case is
encoded in-band as the sentinel string, `Failed` is `None`. -/
def outcomeRepr : UploadOutcome → Option String
  | .Created id => some id
  | .Deduplicated id => some id
  | .RejectedDuplicate (some id) => some id
  | .RejectedDuplicate none => some "DUPLICATE_UNKNOWN_ID"
  | .Failed => none

/-- The asset id carried by an outcome, if any. -/
def outcomeId : UploadOutcome → Option String
  | .Created id => some id
  | .Deduplicated id => some id
  | .RejectedDuplicate oid => oid
  | .Failed => none

lemma upload_asset_refines (parseId : String → Option String)
    (r : ServerResponse) (o : UploadOutcome)
    (h : specClassify parseId r = some o) :
    upload_asset parseId r = .ok (outcomeRepr o) := by
  unfold specClassify at h
  unfold upload_asset
  split at h
  · rename_i h201
    simp only [if_pos h201]
    cases hp : parseId r.body with
    | none => rw [hp] at h; simp at h
    | some id =>
      rw [hp] at h
      cases h
      simp [outcomeRepr]
  · rename_i h201
    split at h
    · rename_i h200
      simp only [if_neg h201, if_pos h200]
      cases hp : parseId r.body with
      | none => rw [hp] at h; simp at h
      | some id =>
        rw [hp] at h
        cases h
        simp [outcomeRepr]
    · rename_i h200
      split at h
      · rename_i h409
        simp only [if_neg h201, if_neg h200, if_pos h409]
        cases h
        cases hp : parseId r.body with
        | none => simp [outcomeRepr]
        | some id => simp [outcomeRepr]
      · rename_i h409
        simp only [if_neg h201, if_neg h200, if_neg h409]
        cases h
        simp [outcomeRepr]

/-- C1: For every upload attempt, the Upload Engine classifies the server
response exactly as the spec's table prescribes: whenever the spec table
assigns an outcome to a response (status/body-parse combination), the code's
return value is exactly the representation of that outcome — parsed id for
"created"/"ok", parsed id or the unknown sentinel for "conflict", `None`
(Failed) for every other status. -/
theorem c1_upload_classification (parseId : String → Option String)
    (r : ServerResponse) (o : UploadOutcome)
    (h : specClassify parseId r = some o) :
    upload_asset parseId r = .ok (outcomeRepr o) :=
  upload_asset_refines parseId r o h

/-- Witness for C1 at a concrete response: status 201 with body parsing to
id "abc" is classified `Created "abc"` and the code returns `Ok(Some "abc")`. -/
theorem c1_upload_classification_witness :
    upload_asset (fun s => if s = "B" then some "abc" else none)
      ⟨201, "B"⟩ = .ok (outcomeRepr (.Created "abc")) :=
  c1_upload_classification (fun s => if s = "B" then some "abc" else none)
    ⟨201, "B"⟩ (.Created "abc") (by decide)

/-- A candidate local file as the orchestrator sees it: filename (the
ledger identity, §3) and last-modified time (the sort key, main.rs:104). -/
structure LocalFile where
  name : String
  mtime : Nat
deriving DecidableEq

/-- The observable effects of one iteration of `main`'s per-file match on the
result of `upload_asset` (main.rs lines 115-128). -/
structure StepResult where
  /-- asset ids passed to `add_to_album`, in order (empty or singleton). -/
  links : List String
  /-- `true` when `add_to_album` was called and returned an error, which
  `main` only logs (main.rs:118-120). -/
  linkFailed : Bool
  /-- the in-memory history set after the iteration. -/
  history : Finset String
  /-- full contents handed to `save_history`, one entry per call, in order. -/
  saves : List (Finset String)
  /-- increment of `count`. -/
  countDelta : Nat
deriving DecidableEq

/-- Embedding of the body of `main`'s match on `upload_asset`'s result
(main.rs lines 115-128): on `Ok(Some id)`, link unless `id` is the sentinel
`"DUPLICATE_UNKNOWN_ID"` (a link error is only logged), insert the filename
into the history, save the whole history, bump the count; on `Ok(None)` or
`Err(_)`, do nothing.  `lk` abstracts `add_to_album` keyed by asset id. -/
def processFile (h : Finset String) (fname : String)
    (up : Except Unit (Option String)) (lk : String → Except Unit Unit) :
    StepResult :=
  match up with
  | .ok (some assetId) =>
    if assetId = "DUPLICATE_UNKNOWN_ID" then
      { links := [], linkFailed := false, history := insert fname h,
        saves := [insert fname h], countDelta := 1 }
    else
      { links := [assetId],
        linkFailed := match lk assetId with | .ok _ => false | .error _ => true,
        history := insert fname h, saves := [insert fname h], countDelta := 1 }
  | .ok none =>
    { links := [], linkFailed := false, history := h, saves := [], countDelta := 0 }
  | .error _ =>
    { links := [], linkFailed := false, history := h, saves := [], countDelta := 0 }

/-- Aggregate observable effects of `main`'s per-file loop. -/
structure LoopResult where
  history : Finset String
  /-- files actually passed to `upload_asset` (the Upload Engine), in order. -/
  trace : List LocalFile
  /-- asset ids passed to `add_to_album`, in order. -/
  links : List String
  /-- full contents handed to `save_history`, one per call, in order. -/
  saves : List (Finset String)
  count : Nat
deriving DecidableEq

/-- Embedding of `main`'s loop over the sorted entries (main.rs lines
107-129): skip any file whose name is already in the history (lines 110-112,
before any network call), otherwise run the upload and the per-file match.
`up` abstracts `upload_asset` composed with the network. -/
def runLoop (up : LocalFile → Except Unit (Option String))
    (lk : String → Except Unit Unit) (h : Finset String) :
    List LocalFile → LoopResult
  | [] => { history := h, trace := [], links := [], saves := [], count := 0 }
  | f :: rest =>
    if f.name ∈ h then runLoop up lk h rest
    else
      let s := processFile h f.name (up f) lk
      let r := runLoop up lk s.history rest
      { history := r.history, trace := f :: r.trace,
        links := s.links ++ r.links, saves := s.saves ++ r.saves,
        count := s.countDelta + r.count }

/-- C2 is `corrected`: the code cannot distinguish a genuinely parsed
conflict-body id equal to the literal `"DUPLICATE_UNKNOWN_ID"` from the
unknown-id case, because that string doubles as the in-band sentinel
(main.rs:117, main.rs:235).  Concretely, a conflict response whose body
parses to the id `"DUPLICATE_UNKNOWN_ID"` is classified by the spec table as
`RejectedDuplicate` with a known id — a non-`Failed`, non-unknown outcome —
yet the orchestrator makes no link call for it (while still committing the
filename). -/
theorem c2_outcome_effects_counterexample :
    specClassify (fun _ => some "DUPLICATE_UNKNOWN_ID") ⟨409, "B"⟩ =
      some (.RejectedDuplicate (some "DUPLICATE_UNKNOWN_ID")) ∧
    (processFile ∅ "d.jpg"
      (upload_asset (fun _ => some "DUPLICATE_UNKNOWN_ID") ⟨409, "B"⟩)
      (fun _ => .ok ())).links = [] ∧
    (processFile ∅ "d.jpg"
      (upload_asset (fun _ => some "DUPLICATE_UNKNOWN_ID") ⟨409, "B"⟩)
      (fun _ => .ok ())).history = insert "d.jpg" ∅ := by
  refine ⟨by decide, by decide, by decide⟩

/-- C2 as amended: for every processed file, on each of the four non-`Failed`
outcomes the filename is committed to the Ledger (and persisted), and the
link step is invoked exactly for the non-`Failed` outcomes that carry a known
asset id different from the sentinel string `"DUPLICATE_UNKNOWN_ID"` — in
particular never for `RejectedDuplicate(unknown)`; on `Failed`, the filename
is not committed and no link call is made. -/
theorem c2_outcome_effects (parseId : String → Option String)
    (r : ServerResponse) (o : UploadOutcome) (h : Finset String)
    (fname : String) (lk : String → Except Unit Unit)
    (hc : specClassify parseId r = some o) :
    (o ≠ .Failed →
      (processFile h fname (upload_asset parseId r) lk).history =
        insert fname h ∧
      (processFile h fname (upload_asset parseId r) lk).saves =
        [insert fname h] ∧
      (processFile h fname (upload_asset parseId r) lk).links =
        (match outcomeId o with
         | some id => if id = "DUPLICATE_UNKNOWN_ID" then [] else [id]
         | none => [])) ∧
    (o = .Failed →
      (processFile h fname (upload_asset parseId r) lk).history = h ∧
      (processFile h fname (upload_asset parseId r) lk).saves = [] ∧
      (processFile h fname (upload_asset parseId r) lk).links = []) := by
  rw [upload_asset_refines parseId r o hc]
  match o with
  | .Created id =>
    refine ⟨fun _ => ?_, fun hf => by cases hf⟩
    by_cases hid : id = "DUPLICATE_UNKNOWN_ID" <;>
      simp [processFile, outcomeRepr, outcomeId, hid]
  | .Deduplicated id =>
    refine ⟨fun _ => ?_, fun hf => by cases hf⟩
    by_cases hid : id = "DUPLICATE_UNKNOWN_ID" <;>
      simp [processFile, outcomeRepr, outcomeId, hid]
  | .RejectedDuplicate (some id) =>
    refine ⟨fun _ => ?_, fun hf => by cases hf⟩
    by_cases hid : id = "DUPLICATE_UNKNOWN_ID" <;>
      simp [processFile, outcomeRepr, outcomeId, hid]
  | .RejectedDuplicate none =>
    refine ⟨fun _ => ?_, fun hf => by cases hf⟩
    simp [processFile, outcomeRepr, outcomeId]
  | .Failed =>
    refine ⟨fun hnf => absurd rfl hnf, fun _ => ?_⟩
    simp [processFile, outcomeRepr]

/-- Witness for C2 (amended) at a concrete non-`Failed` outcome: a 201
response parsing to id "xyz" commits and links exactly `["xyz"]`. -/
theorem c2_outcome_effects_witness :
    (processFile ∅ "a.png"
      (upload_asset (fun _ => some "xyz") ⟨201, "B"⟩) (fun _ => .ok ())).history =
      insert "a.png" ∅ ∧
    (processFile ∅ "a.png"
      (upload_asset (fun _ => some "xyz") ⟨201, "B"⟩) (fun _ => .ok ())).saves =
      [insert "a.png" ∅] ∧
    (processFile ∅ "a.png"
      (upload_asset (fun _ => some "xyz") ⟨201, "B"⟩) (fun _ => .ok ())).links =
      (match outcomeId (.Created "xyz") with
       | some id => if id = "DUPLICATE_UNKNOWN_ID" then [] else [id]
       | none => []) :=
  (c2_outcome_effects (fun _ => some "xyz") ⟨201, "B"⟩ (.Created "xyz") ∅
    "a.png" (fun _ => .ok ()) (by decide)).1 (by decide)

lemma processFile_history_mono (h : Finset String) (fname : String)
    (up : Except Unit (Option String)) (lk : String → Except Unit Unit) :
    h ⊆ (processFile h fname up lk).history := by
  match up with
  | .ok (some assetId) =>
    by_cases hid : assetId = "DUPLICATE_UNKNOWN_ID" <;>
      simp [processFile, hid, Finset.subset_insert]
  | .ok none => simp [processFile]
  | .error e => simp [processFile]

lemma runLoop_history_mono (up : LocalFile → Except Unit (Option String))
    (lk : String → Except Unit Unit) :
    ∀ (l : List LocalFile) (h : Finset String),
      h ⊆ (runLoop up lk h l).history := by
  intro l
  induction l with
  | nil => intro h; simp [runLoop]
  | cons f rest ih =>
    intro h
    by_cases hm : f.name ∈ h
    · simpa [runLoop, hm] using ih h
    · simp only [runLoop, if_neg hm]
      exact (processFile_history_mono h f.name (up f) lk).trans (ih _)

lemma runLoop_trace_not_mem (up : LocalFile → Except Unit (Option String))
    (lk : String → Except Unit Unit) :
    ∀ (l : List LocalFile) (h : Finset String) (f : LocalFile),
      f ∈ (runLoop up lk h l).trace → f.name ∉ h := by
  intro l
  induction l with
  | nil => intro h f hf; simp [runLoop] at hf
  | cons g rest ih =>
    intro h f hf
    by_cases hm : g.name ∈ h
    · rw [runLoop, if_pos hm] at hf
      exact ih h f hf
    · rw [runLoop, if_neg hm] at hf
      simp only [List.mem_cons] at hf
      rcases hf with rfl | hf
      · exact hm
      · intro hcontra
        exact ih _ f hf (processFile_history_mono h g.name (up g) lk hcontra)

/-- C6: Ledger monotonicity.  For every run — any starting history, any file
list, any upload and link oracles — the history after the loop is a superset
of the loaded one, and no single per-file step ever removes a filename. -/
theorem c6_ledger_monotone (up : LocalFile → Except Unit (Option String))
    (lk : String → Except Unit Unit) (h : Finset String)
    (entries : List LocalFile) (fname : String)
    (ures : Except Unit (Option String)) :
    h ⊆ (runLoop up lk h entries).history ∧
    h ⊆ (processFile h fname ures lk).history :=
  ⟨runLoop_history_mono up lk entries h,
   processFile_history_mono h fname ures lk⟩

/-- C3: a file whose name is in the loaded Ledger is never passed to the
Upload Engine: its name does not appear among the names of the files the
loop hands to `upload_asset` (the membership test at main.rs:110 runs before
any network call for the file). -/
theorem c3_ledger_skips_upload (up : LocalFile → Except Unit (Option String))
    (lk : String → Except Unit Unit) (h : Finset String)
    (entries : List LocalFile) (fname : String) (hmem : fname ∈ h) :
    fname ∉ (runLoop up lk h entries).trace.map LocalFile.name := by
  intro hcontra
  simp only [List.mem_map] at hcontra
  obtain ⟨f, hf, hfn⟩ := hcontra
  exact runLoop_trace_not_mem up lk entries h f hf (hfn ▸ hmem)

/-- Witness for C3: `c.webp` is in the loaded Ledger, and in a run over
`[c.webp, a.png]` (both eligible) the upload trace never names `c.webp`. -/
theorem c3_ledger_skips_upload_witness :
    "c.webp" ∉
      (runLoop (fun _ => .ok none) (fun _ => .ok ()) {"c.webp"}
        [⟨"c.webp", 1⟩, ⟨"a.png", 2⟩]).trace.map LocalFile.name :=
  c3_ledger_skips_upload (fun _ => .ok none) (fun _ => .ok ()) {"c.webp"}
    [⟨"c.webp", 1⟩, ⟨"a.png", 2⟩] "c.webp" (by decide)

/-- C7: when the link step fails (`add_to_album` returns an error) after an
upload returned a known, non-sentinel asset id, the failure is only logged
(`linkFailed` is recorded) and the filename is still committed to the
history and persisted, with the counter still incremented — the link error
never prevents or reverts the Ledger commit (main.rs:116-124). -/
theorem c7_link_failure_still_commits (h : Finset String)
    (fname assetId : String) (lk : String → Except Unit Unit)
    (hid : assetId ≠ "DUPLICATE_UNKNOWN_ID")
    (hfail : lk assetId = .error ()) :
    (processFile h fname (.ok (some assetId)) lk).linkFailed = true ∧
    (processFile h fname (.ok (some assetId)) lk).links = [assetId] ∧
    (processFile h fname (.ok (some assetId)) lk).history = insert fname h ∧
    (processFile h fname (.ok (some assetId)) lk).saves = [insert fname h] ∧
    (processFile h fname (.ok (some assetId)) lk).countDelta = 1 := by
  simp [processFile, hid, hfail]

/-- Witness for C7 at a concrete failing link oracle: the commit happens
anyway. -/
theorem c7_link_failure_still_commits_witness :
    (processFile ∅ "a.png" (.ok (some "x1")) (fun _ => .error ())).linkFailed
      = true ∧
    (processFile ∅ "a.png" (.ok (some "x1")) (fun _ => .error ())).links
      = ["x1"] ∧
    (processFile ∅ "a.png" (.ok (some "x1")) (fun _ => .error ())).history
      = insert "a.png" ∅ ∧
    (processFile ∅ "a.png" (.ok (some "x1")) (fun _ => .error ())).saves
      = [insert "a.png" ∅] ∧
    (processFile ∅ "a.png" (.ok (some "x1")) (fun _ => .error ())).countDelta
      = 1 :=
  c7_link_failure_still_commits ∅ "a.png" "x1" (fun _ => .error ())
    (by decide) rfl

/-- Stable insertion of a file into a list ordered by ascending `mtime`:
the new file goes before the first strictly-later element and after every
earlier-or-equal one, so original order is kept among equal keys. -/
def insertByMtime (f : LocalFile) : List LocalFile → List LocalFile
  | [] => [f]
  | g :: rest =>
    if f.mtime ≤ g.mtime then f :: g :: rest else g :: insertByMtime f rest

/-- Embedding of `entries.sort_by_key(modified-time)` (main.rs:104): a stable
sort by ascending last-modified time, realized as stable insertion sort. -/
def sortEntries : List LocalFile → List LocalFile
  | [] => []
  | f :: rest => insertByMtime f (sortEntries rest)

lemma mem_insertByMtime (f x : LocalFile) (l : List LocalFile) :
    x ∈ insertByMtime f l ↔ x = f ∨ x ∈ l := by
  induction l with
  | nil => simp [insertByMtime]
  | cons g rest ih =>
    by_cases hle : f.mtime ≤ g.mtime
    · simp [insertByMtime, hle]
    · simp [insertByMtime, hle, ih]
      tauto

lemma pairwise_insertByMtime (f : LocalFile) (l : List LocalFile)
    (hp : l.Pairwise (fun a b => a.mtime ≤ b.mtime)) :
    (insertByMtime f l).Pairwise (fun a b => a.mtime ≤ b.mtime) := by
  induction l with
  | nil => simp [insertByMtime]
  | cons g rest ih =>
    rcases List.pairwise_cons.mp hp with ⟨hg, hrest⟩
    by_cases hle : f.mtime ≤ g.mtime
    · rw [insertByMtime, if_pos hle]
      refine List.pairwise_cons.mpr ⟨?_, hp⟩
      intro x hx
      rcases List.mem_cons.mp hx with rfl | hx
      · exact hle
      · exact hle.trans (hg x hx)
    · rw [insertByMtime, if_neg hle]
      refine List.pairwise_cons.mpr ⟨?_, ih hrest⟩
      intro x hx
      rcases (mem_insertByMtime f x rest).mp hx with rfl | hx
      · exact le_of_not_le hle
      · exact hg x hx

lemma sortEntries_pairwise (l : List LocalFile) :
    (sortEntries l).Pairwise (fun a b => a.mtime ≤ b.mtime) := by
  induction l with
  | nil => simp [sortEntries]
  | cons f rest ih => exact pairwise_insertByMtime f (sortEntries rest) ih

lemma insertByMtime_perm (f : LocalFile) (l : List LocalFile) :
    (insertByMtime f l).Perm (f :: l) := by
  induction l with
  | nil => simp [insertByMtime]
  | cons g rest ih =>
    by_cases hle : f.mtime ≤ g.mtime
    · rw [insertByMtime, if_pos hle]
    · rw [insertByMtime, if_neg hle]
      exact (ih.cons g).trans (List.Perm.swap f g rest)

lemma sortEntries_perm (l : List LocalFile) : (sortEntries l).Perm l := by
  induction l with
  | nil => simp [sortEntries]
  | cons f rest ih =>
    exact (insertByMtime_perm f (sortEntries rest)).trans (ih.cons f)

lemma runLoop_trace_sublist (up : LocalFile → Except Unit (Option String))
    (lk : String → Except Unit Unit) :
    ∀ (l : List LocalFile) (h : Finset String),
      (runLoop up lk h l).trace.Sublist l := by
  intro l
  induction l with
  | nil => intro h; simp [runLoop]
  | cons f rest ih =>
    intro h
    by_cases hm : f.name ∈ h
    · rw [runLoop, if_pos hm]
      exact (ih h).cons f
    · rw [runLoop, if_neg hm]
      exact (ih _).cons₂ f

/-- C5: the loop over the sorted entries invokes the Upload Engine in
non-decreasing modification-time order: the sorted list is a permutation of
the scanned entries, and the upload trace is pairwise ordered by `mtime`, so
of two uploaded files with distinct timestamps the earlier-modified one is
always passed first. -/
theorem c5_upload_order_by_mtime (up : LocalFile → Except Unit (Option String))
    (lk : String → Except Unit Unit) (h : Finset String)
    (entries : List LocalFile) :
    (sortEntries entries).Perm entries ∧
    (runLoop up lk h (sortEntries entries)).trace.Pairwise
      (fun a b => a.mtime ≤ b.mtime) :=
  ⟨sortEntries_perm entries,
   List.Pairwise.sublist (runLoop_trace_sublist up lk (sortEntries entries) h)
     (sortEntries_pairwise entries)⟩

/-- Embedding of `get_active_url` (main.rs lines 142-157).  `pingOk` is the
transport-level result of the reachability probe against the primary (only
consulted when the primary is non-empty; the fallback is never probed). -/
def get_active_url (pingOk : Bool) (localUrl extUrl : String) : Option String :=
  if localUrl ≠ "" ∧ pingOk = true then some localUrl
  else if extUrl ≠ "" then some extUrl
  else none

/-- The per-file loop of `main` with the fallibility of `save_history`
included: `sv` abstracts `save_history`, whose `?` at main.rs:123 propagates
an error out of `main`, aborting the whole run (after the in-memory insert
at main.rs:122 but before the `count` increment at main.rs:124).  When every
save succeeds this agrees with `runLoop` (see `runLoopSave_all_ok`). -/
def runLoopSave (up : LocalFile → Except Unit (Option String))
    (lk : String → Except Unit Unit) (sv : Finset String → Except Unit Unit)
    (h : Finset String) : List LocalFile → Except Unit LoopResult
  | [] => .ok { history := h, trace := [], links := [], saves := [], count := 0 }
  | f :: rest =>
    if f.name ∈ h then runLoopSave up lk sv h rest
    else
      match up f with
      | .ok (some assetId) =>
        match sv (insert f.name h) with
        | .error e => .error e
        | .ok _ =>
          match runLoopSave up lk sv (insert f.name h) rest with
          | .error e => .error e
          | .ok r =>
            .ok { history := r.history, trace := f :: r.trace,
                  links := (if assetId = "DUPLICATE_UNKNOWN_ID" then []
                            else [assetId]) ++ r.links,
                  saves := insert f.name h :: r.saves, count := 1 + r.count }
      | .ok none =>
        match runLoopSave up lk sv h rest with
        | .error e => .error e
        | .ok r => .ok { r with trace := f :: r.trace }
      | .error _ =>
        match runLoopSave up lk sv h rest with
        | .error e => .error e
        | .ok r => .ok { r with trace := f :: r.trace }

lemma runLoopSave_all_ok (up : LocalFile → Except Unit (Option String))
    (lk : String → Except Unit Unit) :
    ∀ (l : List LocalFile) (h : Finset String),
      runLoopSave up lk (fun _ => .ok ()) h l = .ok (runLoop up lk h l) := by
  intro l
  induction l with
  | nil => intro h; rfl
  | cons f rest ih =>
    intro h
    by_cases hm : f.name ∈ h
    · rw [runLoopSave, runLoop, if_pos hm, if_pos hm]
      exact ih h
    · rw [runLoopSave, runLoop, if_neg hm, if_neg hm]
      cases hu : up f with
      | error e =>
        rw [ih h]
        simp [processFile]
      | ok v =>
        cases v with
        | none =>
          rw [ih h]
          simp [processFile]
        | some assetId =>
          rw [ih (insert f.name h)]
          by_cases hid : assetId = "DUPLICATE_UNKNOWN_ID" <;>
            simp [processFile, hid]

/-- How a run of `main` ends.  The first four constructors and `completed`
are normal process exits: those early-exit paths log and `return Ok(())`
(main.rs:63, 73, 77, 86) and the completed path falls through to `Ok(())`
(main.rs:137).  `aborted` is the abnormal exit: an `Err` propagated out of
`main` by a `?` — history-file load failure (main.rs:82), directory-listing
failure (main.rs:90), or ledger-save failure (main.rs:123) — with no logged
diagnostic and a nonzero process exit code. -/
inductive RunExit where
  | noEndpoint
  | albumError
  | albumNotFound
  | folderMissing
  | completed (count : Nat) (history : Finset String)
  | aborted
deriving DecidableEq

/-- Embedding of the control flow of `main` (main.rs lines 59-137) after
configuration is read: endpoint resolution, album lookup (`albumLookup`
abstracts `get_album_id`'s `Result<Option<String>>`), history load
(`loadHistory` abstracts `load_history()`, whose `?` at main.rs:82 aborts
on `File::open` failure), source-folder existence check, directory listing
(`readDir` abstracts `fs::read_dir(..)?` at main.rs:90, which aborts on
error), then the save-aware per-file loop over the entries sorted by
modification time. -/
def mainRun (pingOk : Bool) (localUrl extUrl : String)
    (albumLookup : Except Unit (Option String))
    (loadHistory : Except Unit (Finset String)) (folderExists : Bool)
    (readDir : Except Unit (List LocalFile))
    (up : LocalFile → Except Unit (Option String))
    (lk : String → Except Unit Unit)
    (sv : Finset String → Except Unit Unit) : RunExit :=
  match get_active_url pingOk localUrl extUrl with
  | none => .noEndpoint
  | some _ =>
    match albumLookup with
    | .error _ => .albumError
    | .ok none => .albumNotFound
    | .ok (some _) =>
      match loadHistory with
      | .error _ => .aborted
      | .ok h =>
        if folderExists then
          match readDir with
          | .error _ => .aborted
          | .ok entries =>
            match runLoopSave up lk sv h (sortEntries entries) with
            | .error _ => .aborted
            | .ok r => .completed r.count r.history
        else .folderMissing

/-- C4: endpoint resolution.  A non-empty primary with a successful probe is
selected; if the primary is empty or its probe fails, a non-empty fallback is
selected (without probing); if the fallback is also empty, resolution yields
nothing and the run ends gracefully at the `noEndpoint` exit. -/
theorem c4_endpoint_resolution (pingOk : Bool) (localUrl extUrl : String) :
    (localUrl ≠ "" → pingOk = true →
      get_active_url pingOk localUrl extUrl = some localUrl) ∧
    ((localUrl = "" ∨ pingOk = false) → extUrl ≠ "" →
      get_active_url pingOk localUrl extUrl = some extUrl) ∧
    ((localUrl = "" ∨ pingOk = false) → extUrl = "" →
      get_active_url pingOk localUrl extUrl = none) ∧
    (∀ (alb : Except Unit (Option String))
      (load : Except Unit (Finset String)) (fe : Bool)
      (rd : Except Unit (List LocalFile))
      (up : LocalFile → Except Unit (Option String))
      (lk : String → Except Unit Unit)
      (sv : Finset String → Except Unit Unit),
      get_active_url pingOk localUrl extUrl = none →
      mainRun pingOk localUrl extUrl alb load fe rd up lk sv = .noEndpoint) := by
  refine ⟨?_, ?_, ?_, ?_⟩
  · intro hl hp
    simp [get_active_url, hl, hp]
  · intro hor he
    have hno : ¬(localUrl ≠ "" ∧ pingOk = true) := by
      rcases hor with hl | hp
      · exact fun hc => hc.1 hl
      · exact fun hc => by rw [hp] at hc; exact Bool.false_ne_true hc.2
    simp [get_active_url, hno, he]
  · intro hor he
    have hno : ¬(localUrl ≠ "" ∧ pingOk = true) := by
      rcases hor with hl | hp
      · exact fun hc => hc.1 hl
      · exact fun hc => by rw [hp] at hc; exact Bool.false_ne_true hc.2
    simp [get_active_url, hno, he]
  · intro alb load fe rd up lk sv hnone
    unfold mainRun
    rw [hnone]

/-- Witness for C4: with a reachable non-empty primary and empty fallback the
primary is selected; with both empty the run exits at `noEndpoint`. -/
theorem c4_endpoint_resolution_witness :
    get_active_url true "http://local:2283" "" = some "http://local:2283" ∧
    mainRun false "" "" (.ok (some "alb")) (.ok ∅) true (.ok [])
      (fun _ => .ok none) (fun _ => .ok ()) (fun _ => .ok ()) = .noEndpoint :=
  ⟨(c4_endpoint_resolution true "http://local:2283" "").1 (by decide) rfl,
   (c4_endpoint_resolution false "" "").2.2.2 (.ok (some "alb")) (.ok ∅) true
     (.ok []) (fun _ => .ok none) (fun _ => .ok ()) (fun _ => .ok ())
     (by decide)⟩

/-- The persisted-ledger commit discipline: each element of the `saves` list
is the full history as it stands right after one insertion of a fresh
filename into the previous state, in order, and the final in-memory history
equals the last persisted state (the initial one when nothing was saved). -/
def savesChain (h0 : Finset String) :
    List (Finset String) → Finset String → Prop
  | [], hf => hf = h0
  | s :: rest, hf => (∃ f, f ∉ h0 ∧ s = insert f h0) ∧ savesChain s rest hf

/-- C8: after every mutation of the history (each single filename insertion)
the loop hands the full updated set to `save_history` before any further
file is processed — each persisted snapshot is the whole list rewritten, it
differs from its predecessor by exactly the one new filename, and the final
in-memory history equals the last snapshot, so nothing is ever left
unpersisted between files. -/
theorem c8_save_after_every_mutation
    (up : LocalFile → Except Unit (Option String))
    (lk : String → Except Unit Unit) :
    ∀ (l : List LocalFile) (h : Finset String),
      savesChain h (runLoop up lk h l).saves (runLoop up lk h l).history := by
  intro l
  induction l with
  | nil => intro h; simp [runLoop, savesChain]
  | cons f rest ih =>
    intro h
    by_cases hm : f.name ∈ h
    · rw [runLoop, if_pos hm]
      exact ih h
    · rw [runLoop, if_neg hm]
      cases hu : up f with
      | error e =>
        simpa [processFile] using ih h
      | ok v =>
        cases v with
        | none => simpa [processFile] using ih h
        | some assetId =>
          by_cases hid : assetId = "DUPLICATE_UNKNOWN_ID"
          · simp only [processFile, if_pos hid]
            exact ⟨⟨f.name, hm, rfl⟩, ih (insert f.name h)⟩
          · simp only [processFile, if_neg hid]
            exact ⟨⟨f.name, hm, rfl⟩, ih (insert f.name h)⟩

/-- Embedding of `load_history` (main.rs lines 244-251), given the contents
of the history file when it exists (`none` = file absent).  `parseList`
abstracts `serde_json::from_reader` into a `Vec<String>`; a parse failure is
replaced by the empty list (`unwrap_or_default`), and the list becomes the
in-memory set. -/
def load_history (parseList : String → Option (List String)) :
    Option String → Finset String
  | none => ∅
  | some contents => ((parseList contents).getD []).toFinset

/-- C10: if the history file exists but its contents do not parse as a JSON
list of strings, loading silently yields the empty set, exactly as if the
file were absent. -/
theorem c10_corrupt_history_loads_empty
    (parseList : String → Option (List String)) (contents : String)
    (hbad : parseList contents = none) :
    load_history parseList (some contents) = ∅ ∧
    load_history parseList (some contents) = load_history parseList none := by
  simp [load_history, hbad]

/-- Witness for C10 at concrete unparseable contents. -/
theorem c10_corrupt_history_loads_empty_witness :
    load_history (fun _ => none) (some "not json") = ∅ ∧
    load_history (fun _ => none) (some "not json") =
      load_history (fun _ => none) none :=
  c10_corrupt_history_loads_empty (fun _ => none) "not json" rfl

lemma runLoop_append (up : LocalFile → Except Unit (Option String))
    (lk : String → Except Unit Unit) :
    ∀ (l₁ l₂ : List LocalFile) (h : Finset String),
      (runLoop up lk h (l₁ ++ l₂)).history =
        (runLoop up lk (runLoop up lk h l₁).history l₂).history ∧
      (runLoop up lk h (l₁ ++ l₂)).trace =
        (runLoop up lk h l₁).trace ++
          (runLoop up lk (runLoop up lk h l₁).history l₂).trace := by
  intro l₁
  induction l₁ with
  | nil => intro l₂ h; simp [runLoop]
  | cons f rest ih =>
    intro l₂ h
    by_cases hm : f.name ∈ h
    · simp only [List.cons_append, runLoop, if_pos hm]
      exact ih l₂ h
    · simp only [List.cons_append, runLoop, if_neg hm]
      rcases ih l₂ (processFile h f.name (up f) lk).history with ⟨h1, h2⟩
      exact ⟨h1, by simp [h2]⟩

/-- C9 is `corrected`, on two counts.  First, the claim's list of
run-stopping conditions is incomplete: a failure of the album-listing
request itself (`get_album_id` returning `Err`, main.rs lines 75-78) also
stops the run early — here the endpoint resolved, the collection was not
"not found" (the lookup errored before any verdict), and the source
directory exists, yet the run ends at the `albumError` exit without
processing the pending eligible file.  Second, not every expected failure
path is a normal exit: a directory-listing failure — an expected early exit
per the spec's §4.4 "Aborted from a file-listing/read error in Scanning" —
propagates `Err` out of `main` via the `?` at main.rs:90, an abnormal exit;
so do a history-load failure (main.rs:82) and a ledger-save failure
(main.rs:123), the latter aborting mid-loop with the pending file uploaded
but uncounted.  The healthy baseline on the same inputs completes. -/
theorem c9_early_exit_counterexample :
    get_active_url true "http://local:2283" "" = some "http://local:2283" ∧
    ((.error () : Except Unit (Option String)) ≠ .ok none) ∧
    mainRun true "http://local:2283" "" (.error ()) (.ok ∅) true
      (.ok [⟨"a.png", 1⟩]) (fun _ => .ok (some "x1")) (fun _ => .ok ())
      (fun _ => .ok ()) = .albumError ∧
    mainRun true "http://local:2283" "" (.ok (some "alb")) (.ok ∅) true
      (.error ()) (fun _ => .ok (some "x1")) (fun _ => .ok ())
      (fun _ => .ok ()) = .aborted ∧
    mainRun true "http://local:2283" "" (.ok (some "alb")) (.error ()) true
      (.ok [⟨"a.png", 1⟩]) (fun _ => .ok (some "x1")) (fun _ => .ok ())
      (fun _ => .ok ()) = .aborted ∧
    mainRun true "http://local:2283" "" (.ok (some "alb")) (.ok ∅) true
      (.ok [⟨"a.png", 1⟩]) (fun _ => .ok (some "x1")) (fun _ => .ok ())
      (fun _ => .error ()) = .aborted ∧
    mainRun true "http://local:2283" "" (.ok (some "alb")) (.ok ∅) true
      (.ok [⟨"a.png", 1⟩]) (fun _ => .ok (some "x1")) (fun _ => .ok ())
      (fun _ => .ok ()) = .completed 1 (insert "a.png" ∅) := by
  refine ⟨by decide, fun hc => Except.noConfusion hc, by decide, by decide,
    by decide, by decide, by decide⟩

/-- C9 as amended: a failure affecting a single file (its upload or link)
never aborts the run — later files are still processed; the run stops early
with a logged normal exit on exactly: no endpoint reachable, the
collection-listing request failing, the named collection not found, or the
source directory missing; and it aborts with an abnormal `Err` exit when
the history load, the directory listing, or a mid-loop ledger save fails.
Each conjunct fixes one exit path of `mainRun`; the completed case returns
the loop's count and history; the all-saves-succeed conjunct ties the
save-aware loop to `runLoop`; the last conjunct shows that whatever the
upload and link oracles did on earlier files (including arbitrary
failures), a later file not yet in the history is still passed to the
Upload Engine. -/
theorem c9_normal_exit_and_fatal_conditions (pingOk : Bool)
    (localUrl extUrl : String) (alb : Except Unit (Option String))
    (load : Except Unit (Finset String)) (fe : Bool)
    (rd : Except Unit (List LocalFile)) (h : Finset String)
    (entries : List LocalFile)
    (up : LocalFile → Except Unit (Option String))
    (lk : String → Except Unit Unit)
    (sv : Finset String → Except Unit Unit) :
    (get_active_url pingOk localUrl extUrl = none →
      mainRun pingOk localUrl extUrl alb load fe rd up lk sv = .noEndpoint) ∧
    (∀ u, get_active_url pingOk localUrl extUrl = some u → alb = .error () →
      mainRun pingOk localUrl extUrl alb load fe rd up lk sv = .albumError) ∧
    (∀ u, get_active_url pingOk localUrl extUrl = some u → alb = .ok none →
      mainRun pingOk localUrl extUrl alb load fe rd up lk sv =
        .albumNotFound) ∧
    (∀ u i, get_active_url pingOk localUrl extUrl = some u →
      alb = .ok (some i) → load = .error () →
      mainRun pingOk localUrl extUrl alb load fe rd up lk sv = .aborted) ∧
    (∀ u i, get_active_url pingOk localUrl extUrl = some u →
      alb = .ok (some i) → load = .ok h → fe = false →
      mainRun pingOk localUrl extUrl alb load fe rd up lk sv =
        .folderMissing) ∧
    (∀ u i, get_active_url pingOk localUrl extUrl = some u →
      alb = .ok (some i) → load = .ok h → fe = true → rd = .error () →
      mainRun pingOk localUrl extUrl alb load fe rd up lk sv = .aborted) ∧
    (∀ u i, get_active_url pingOk localUrl extUrl = some u →
      alb = .ok (some i) → load = .ok h → fe = true → rd = .ok entries →
      runLoopSave up lk sv h (sortEntries entries) = .error () →
      mainRun pingOk localUrl extUrl alb load fe rd up lk sv = .aborted) ∧
    (∀ u i r, get_active_url pingOk localUrl extUrl = some u →
      alb = .ok (some i) → load = .ok h → fe = true → rd = .ok entries →
      runLoopSave up lk sv h (sortEntries entries) = .ok r →
      mainRun pingOk localUrl extUrl alb load fe rd up lk sv =
        .completed r.count r.history) ∧
    (runLoopSave up lk (fun _ => .ok ()) h (sortEntries entries) =
      .ok (runLoop up lk h (sortEntries entries))) ∧
    (∀ (l₁ : List LocalFile) (f : LocalFile) (l₂ : List LocalFile)
      (h' : Finset String),
      f.name ∉ (runLoop up lk h' l₁).history →
      f ∈ (runLoop up lk h' (l₁ ++ f :: l₂)).trace) := by
  refine ⟨?_, ?_, ?_, ?_, ?_, ?_, ?_, ?_, ?_, ?_⟩
  · intro hnone
    unfold mainRun
    rw [hnone]
  · intro u hu halb
    unfold mainRun
    rw [hu, halb]
  · intro u hu halb
    unfold mainRun
    rw [hu, halb]
  · intro u i hu halb hload
    unfold mainRun
    rw [hu, halb, hload]
  · intro u i hu halb hload hfe
    unfold mainRun
    rw [hu, halb, hload, hfe]
    rfl
  · intro u i hu halb hload hfe hrd
    unfold mainRun
    rw [hu, halb, hload, hfe, hrd]
    rfl
  · intro u i hu halb hload hfe hrd hsv
    unfold mainRun
    rw [hu, halb, hload, hfe, hrd]
    simp [hsv]
  · intro u i r hu halb hload hfe hrd hsv
    unfold mainRun
    rw [hu, halb, hload, hfe, hrd]
    simp [hsv]
  · exact runLoopSave_all_ok up lk (sortEntries entries) h
  · intro l₁ f l₂ h' hnm
    rcases runLoop_append up lk l₁ (f :: l₂) h' with ⟨_, htr⟩
    rw [htr, runLoop, if_neg hnm]
    simp

/-- Witness for C9 (amended): a fully healthy environment completes the run
with the loop's count and history (the save-ok hypothesis discharged by the
theorem's own all-saves-succeed conjunct), and after a file whose upload
fails the next file is still uploaded. -/
theorem c9_normal_exit_and_fatal_conditions_witness :
    mainRun true "http://local:2283" "" (.ok (some "alb")) (.ok ∅) true
      (.ok [⟨"a.png", 1⟩]) (fun _ => .ok (some "x1")) (fun _ => .ok ())
      (fun _ => .ok ()) =
      .completed
        (runLoop (fun _ => .ok (some "x1")) (fun _ => .ok ()) ∅
          (sortEntries [⟨"a.png", 1⟩])).count
        (runLoop (fun _ => .ok (some "x1")) (fun _ => .ok ()) ∅
          (sortEntries [⟨"a.png", 1⟩])).history ∧
    (⟨"b.jpg", 2⟩ : LocalFile) ∈
      (runLoop (fun _ => .error ()) (fun _ => .ok ()) ∅
        ([⟨"a.png", 1⟩] ++ ⟨"b.jpg", 2⟩ :: [])).trace :=
  ⟨(c9_normal_exit_and_fatal_conditions true "http://local:2283" ""
      (.ok (some "alb")) (.ok ∅) true (.ok [⟨"a.png", 1⟩]) ∅ [⟨"a.png", 1⟩]
      (fun _ => .ok (some "x1")) (fun _ => .ok ())
      (fun _ => .ok ())).2.2.2.2.2.2.2.1 "http://local:2283" "alb"
      (runLoop (fun _ => .ok (some "x1")) (fun _ => .ok ()) ∅
        (sortEntries [⟨"a.png", 1⟩]))
      rfl rfl rfl rfl rfl
      ((c9_normal_exit_and_fatal_conditions true "http://local:2283" ""
        (.ok (some "alb")) (.ok ∅) true (.ok [⟨"a.png", 1⟩]) ∅ [⟨"a.png", 1⟩]
        (fun _ => .ok (some "x1")) (fun _ => .ok ())
        (fun _ => .ok ())).2.2.2.2.2.2.2.2.1),
   (c9_normal_exit_and_fatal_conditions true "http://local:2283" ""
      (.ok (some "alb")) (.ok ∅) true (.ok [⟨"a.png", 1⟩]) ∅ [⟨"a.png", 1⟩]
      (fun _ => .error ()) (fun _ => .ok ())
      (fun _ => .ok ())).2.2.2.2.2.2.2.2.2 [⟨"a.png", 1⟩] ⟨"b.jpg", 2⟩ [] ∅
      (by decide)⟩

end ImmichSync
